import Mathlib

/-!
Shallow embedding of the `RenderTextureStack` class from
`fsleyes/gl/textures/rendertexturestack.py`, and proofs about it.

Real-valued quantities (slice positions, the index arithmetic performed in
Python floating point) are embedded as exact rationals `ℚ`; Python `int()`
is truncation toward zero; Python 2 lists are Lean lists and Python 2
integer division on naturals is `Nat` division.  Mutable attributes of a
`RenderTextureStack` instance become fields of an explicit `Stack` state,
and the cooperative `async.idle` scheduler is modelled by a counter of
pending refresh-loop ticks (the spec's Scheduler contract: each `enqueue`
schedules one task to run once, later).
-/

namespace RenderTextureStack

/-- Python `int(x)` applied to a real number: truncation toward zero. -/
def intTrunc (q : ℚ) : ℤ := if 0 ≤ q then ⌊q⌋ else ⌈q⌉

/-- The raw index computed by `__zposToIndex` before the boundary
tolerance and the final `int()` conversion:
`step = (zmax - zmin) / ntexs; index = (zpos - zmin) / step`. -/
def rawIndex (zmin zmax : ℚ) (ntexs : ℕ) (zpos : ℚ) : ℚ :=
  (zpos - zmin) / ((zmax - zmin) / (ntexs : ℚ))

/-- `RenderTextureStack.__zposToIndex` (rendertexturestack.py lines
316-330): converts a Z location into a texture index.  The two boundary
checks (`abs(index) < 0.01` and `abs(index - ntexs) < 0.01`) run in order
on the float value, and only then is the result truncated with `int()`. -/
def zposToIndex (zmin zmax : ℚ) (ntexs : ℕ) (zpos : ℚ) : ℤ :=
  let index0 : ℚ := rawIndex zmin zmax ntexs zpos
  let index1 : ℚ := if |index0| < 1 / 100 then 0 else index0
  let index2 : ℚ := if |index1 - (ntexs : ℚ)| < 1 / 100 then (ntexs : ℚ) - 1 else index1
  intTrunc index2

/-- `RenderTextureStack.__indexToZpos` (lines 333-342): converts a texture
index into a Z location:
`index * (zmax - zmin) / ntexs + (zmin + 0.5 * step)`. -/
def indexToZpos (zmin zmax : ℚ) (ntexs : ℕ) (index : ℤ) : ℚ :=
  let step : ℚ := (zmax - zmin) / (ntexs : ℚ)
  (index : ℚ) * (zmax - zmin) / (ntexs : ℚ) + (zmin + 1 / 2 * step)

example : zposToIndex 0 4 4 0 = 0 := by norm_num [zposToIndex, rawIndex, intTrunc]
example : zposToIndex 0 4 4 2 = 2 := by norm_num [zposToIndex, rawIndex, intTrunc]
example : zposToIndex 0 4 4 4 = 3 := by norm_num [zposToIndex, rawIndex, intTrunc]
example : zposToIndex 0 1 1 2 = 2 := by norm_num [zposToIndex, rawIndex, intTrunc]
example : zposToIndex 0 1 1 (-1/2) = 0 := by
  norm_num [zposToIndex, rawIndex, intTrunc, abs_neg, abs_of_nonneg]
example : indexToZpos 0 4 4 2 = 5/2 := by norm_num [indexToZpos]

/-- Python 2 `range(a, b)` over machine integers: `[a, a+1, ..., b-1]`,
empty when `b ≤ a`. -/
def pyRange (a b : ℤ) : List ℤ :=
  (List.range (b - a).toNat).map (fun i : ℕ => a + (i : ℤ))

/-- Python 2 `range(a, -1, -1)`: `[a, a-1, ..., 0]`, empty when `a < 0`. -/
def pyRangeDown (a : ℤ) : List ℤ :=
  (List.range (a + 1).toNat).map (fun i : ℕ => a - (i : ℤ))

example : pyRange 4 6 = [4, 5] := by decide
example : pyRange 6 6 = [] := by decide
example : pyRangeDown 3 = [3, 2, 1, 0] := by decide
example : pyRangeDown (-1) = [] := by decide

/-- The index-building loop of `__refreshAllTextures` (lines 207-216):
`for i in range(n)`, popping from `aboveIdxs` on even `i` and from
`belowIdxs` on odd `i` while both are non-empty, then draining whichever
remains.  `fuel` is the number of loop iterations (`len(self.__textures)`),
`i` the loop counter.  `none` models the `IndexError` that Python would
raise on `belowIdxs.pop(0)` with both lists empty. -/
def refreshLoop : ℕ → ℕ → List ℤ → List ℤ → Option (List ℤ)
  | _, 0, _, _ => some []
  | i, fuel + 1, above, below =>
    match above, below with
    | a :: as_, b :: bs =>
      if i % 2 = 1 then (refreshLoop (i + 1) fuel (a :: as_) bs).map (b :: ·)
      else (refreshLoop (i + 1) fuel as_ (b :: bs)).map (a :: ·)
    | a :: as_, [] => (refreshLoop (i + 1) fuel as_ []).map (a :: ·)
    | [], b :: bs => (refreshLoop (i + 1) fuel [] bs).map (b :: ·)
    | [], [] => none

/-- Round-robin interleaving of two lists: take the head of the first,
then continue with the lists swapped; once one list is exhausted the
remainder of the other follows.  This is the clean statement of the
alternation performed by the loop of `__refreshAllTextures`. -/
def roundRobin : List ℤ → List ℤ → List ℤ
  | [], ys => ys
  | x :: xs, ys => x :: roundRobin ys xs
termination_by a b => a.length + b.length
decreasing_by simp; omega

/-- The `lastIdx` picked at lines 199-202: the last drawn index when a
draw has occurred, else `len(self.__textures) / 2` (Python 2 integer
division). -/
def lastIdxOf (ntexs : ℕ) (lastDrawn : Option ℤ) : ℤ :=
  match lastDrawn with
  | some i => i
  | none => (ntexs : ℤ) / 2

/-- The queue built by `__refreshAllTextures` (lines 199-216): `lastIdx`
splits the indices into `aboveIdxs = range(lastIdx, ntexs)` and
`belowIdxs = range(lastIdx - 1, -1, -1)`, which the loop interleaves. -/
def refreshAllQueue (ntexs : ℕ) (lastDrawn : Option ℤ) : Option (List ℤ) :=
  let lastIdx : ℤ := lastIdxOf ntexs lastDrawn
  refreshLoop 0 ntexs (pyRange lastIdx ntexs) (pyRangeDown (lastIdx - 1))

example : refreshAllQueue 6 (some 4) = some [4, 3, 5, 2, 1, 0] := by decide
example : refreshAllQueue 4 none = some [2, 1, 3, 0] := by decide
example : refreshAllQueue 1 (some 0) = some [0] := by decide

/-- Python list read `l[i]`: negative indices count from the end; an index
out of range raises `IndexError`, modelled as `none`. -/
def pyListGet (l : List Bool) (i : ℤ) : Option Bool :=
  let j : ℤ := if i < 0 then (l.length : ℤ) + i else i
  if 0 ≤ j then l.get? j.toNat else none

/-- Python list write `l[i] = b` at an index known to be readable
(same index normalisation as `pyListGet`; out of range leaves `l`). -/
def pyListSet (l : List Bool) (i : ℤ) (b : Bool) : List Bool :=
  let j : ℤ := if i < 0 then (l.length : ℤ) + i else i
  if 0 ≤ j then l.set j.toNat b else l

/-- The mutable state of a `RenderTextureStack` instance, restricted to
the attributes the refresh machinery reads and writes.  The textures
themselves are opaque GPU resources; only their number matters here
(`ntexs = len(self.__textures)`), together with `self.__textureDirty`,
`self.__updateQueue`, `self.__lastDrawnTexture` and the display range
`self.__zmin / self.__zmax` set by `onGLObjectUpdate`.  `pending` counts
the refresh-loop ticks currently scheduled with `async.idle` (the spec's
Scheduler: each `enqueue` schedules one run of the task). -/
structure Stack where
  zmin : ℚ
  zmax : ℚ
  ntexs : ℕ
  textureDirty : List Bool
  updateQueue : List ℤ
  lastDrawnTexture : Option ℤ
  pending : ℕ
deriving DecidableEq

/-- `RenderTextureStack.__refreshAllTextures` (lines 194-221): builds the
interleaved queue, marks every texture dirty, installs the queue, and
unconditionally schedules one more refresh tick with `async.idle`.  In
the `none` (IndexError) case the loop raises before any attribute is
assigned, so the state is unchanged; this case is unreachable when
`ntexs ≥ 1`. -/
def refreshAllTextures (s : Stack) : Stack :=
  match refreshAllQueue s.ntexs s.lastDrawnTexture with
  | some idxs =>
    { s with
      textureDirty := List.replicate s.ntexs true
      updateQueue := idxs
      pending := s.pending + 1 }
  | none => s

/-- `RenderTextureStack.__destroyTextures` (lines 164-173): empties the
texture list immediately (`self.__textures = []`); the destruction of the
individual textures is handed to separate idle tasks, which are not
refresh-loop ticks and so do not touch `pending`.  The dirty flags and
the update queue are left as they are. -/
def destroyTextures (s : Stack) : Stack :=
  { s with ntexs := 0 }

/-- `RenderTextureStack.__textureUpdateLoop` (lines 224-250), as executed
by the scheduler: the tick being run is no longer pending.  `refreshOk`
abstracts whether `__refreshTexture` runs to completion and clears the
dirty flag (it returns early, leaving the flag set, when the GLObject is
not `ready()`; a GL failure inside it would likewise skip line 313; the
detailed model is `refreshTexture` below).  The returned `Option ℤ` is
the index whose texture was accessed and refreshed this tick, if any.
If the popped index cannot be read from the dirty list (`IndexError`),
the tick dies after the pop: no refresh and no re-scheduling. -/
def textureUpdateLoop (refreshOk : Bool) (s : Stack) : Stack × Option ℤ :=
  if s.updateQueue = [] ∨ s.ntexs = 0 then
    ({ s with pending := s.pending - 1 }, none)
  else
    match s.updateQueue with
    | [] => ({ s with pending := s.pending - 1 }, none)
    | idx :: rest =>
      match pyListGet s.textureDirty idx with
      | none =>
        ({ s with updateQueue := rest, pending := s.pending - 1 }, none)
      | some dirtyFlag =>
        let dirty2 : List Bool :=
          if dirtyFlag then
            (if refreshOk then pyListSet s.textureDirty idx false
             else s.textureDirty)
          else s.textureDirty
        let refreshed : Option ℤ := if dirtyFlag then some idx else none
        let pending2 : ℕ :=
          (s.pending - 1) + (if rest = [] then 0 else 1)
        ({ s with
             updateQueue := rest
             textureDirty := dirty2
             pending := pending2 },
         refreshed)

/-- `RenderTextureStack.draw` (lines 102-133): computes the index for the
requested Z position, records it as `self.__lastDrawnTexture` *before*
the range check, returns without drawing when the index is out of range,
otherwise refreshes the slot synchronously if it is dirty (dirty cleared
when the refresh completes, see `textureUpdateLoop` for `refreshOk`) and
serves it.  The served index is returned alongside the new state, `none`
when nothing was drawn. -/
def draw (refreshOk : Bool) (s : Stack) (zpos : ℚ) : Stack × Option ℤ :=
  let texIdx : ℤ := zposToIndex s.zmin s.zmax s.ntexs zpos
  let s1 : Stack := { s with lastDrawnTexture := some texIdx }
  if texIdx < 0 ∨ (s.ntexs : ℤ) ≤ texIdx then (s1, none)
  else
    let dirty2 : List Bool :=
      if (pyListGet s1.textureDirty texIdx).getD false then
        (if refreshOk then pyListSet s1.textureDirty texIdx false
         else s1.textureDirty)
      else s1.textureDirty
    ({ s1 with textureDirty := dirty2 }, some texIdx)

/-- `self.__defaultWidth` (line 68). -/
def defaultWidth : ℕ := 256

/-- `self.__defaultHeight` (line 69). -/
def defaultHeight : ℕ := 256

/-- `self.__maxWidth` (line 65). -/
def maxWidth : ℕ := 1024

/-- `self.__maxHeight` (line 66). -/
def maxHeight : ℕ := 1024

/-- Observable outcome of one `__refreshTexture` call (lines 253-313):
which sizes were passed to `tex.setSize`, whether the dirty flag was
cleared (line 313 reached), and whether an allocation failure escaped
the call as an exception. -/
structure RefreshResult where
  attempts : List (ℕ × ℕ)
  dirtyCleared : Bool
  raised : Bool
deriving DecidableEq

/-- The target size computed at lines 276-286: the data resolution
projected onto the in-plane axes when one exists, else the defaults,
each dimension clamped to its maximum. -/
def clampedSize (res : Option (ℕ × ℕ)) : ℕ × ℕ :=
  let w0 : ℕ := match res with | some r => r.1 | none => defaultWidth
  let h0 : ℕ := match res with | some r => r.2 | none => defaultHeight
  ((if w0 > maxWidth then maxWidth else w0),
   (if h0 > maxHeight then maxHeight else h0))

/-- `RenderTextureStack.__refreshTexture` (lines 253-313), with GPU
allocation made explicit: `alloc w h` tells whether the RenderTarget can
be (re)allocated at `w × h` (`RenderTexture.setSize` lives outside this
file's sources).  When the GLObject is not ready the method returns at
line 266 without touching the texture.  Otherwise `tex.setSize` is
called exactly once, with the clamped computed size; there is no error
handling around it, so a failed allocation propagates and line 313
(clearing the dirty flag) is never reached. -/
def refreshTexture (alloc : ℕ → ℕ → Bool) (ready : Bool)
    (res : Option (ℕ × ℕ)) : RefreshResult :=
  if !ready then ⟨[], false, false⟩
  else
    let wh : ℕ × ℕ := clampedSize res
    if alloc wh.1 wh.2 then ⟨[wh], true, false⟩
    else ⟨[wh], false, true⟩

/-- Modelled from the spec: the slot-refresh behaviour that §7 of the
spec ascribes to the code on RenderTarget allocation failure ("the
affected slot should fall back to the default size once, and if that
also fails, the slot is left dirty and drawing falls back to displaying
nothing (transparent) for that slice rather than crashing").  The
fallback path does not exist in `rendertexturestack.py`; this definition
exists only to be compared with `refreshTexture`. -/
def refreshTextureSpec (alloc : ℕ → ℕ → Bool) (ready : Bool)
    (res : Option (ℕ × ℕ)) : RefreshResult :=
  if !ready then ⟨[], false, false⟩
  else
    let wh : ℕ × ℕ := clampedSize res
    if alloc wh.1 wh.2 then ⟨[wh], true, false⟩
    else if alloc defaultWidth defaultHeight then
      ⟨[wh, (defaultWidth, defaultHeight)], true, false⟩
    else
      ⟨[wh, (defaultWidth, defaultHeight)], false, false⟩

lemma intTrunc_of_nonneg {q : ℚ} (h : 0 ≤ q) : intTrunc q = ⌊q⌋ := if_pos h

lemma intTrunc_of_neg {q : ℚ} (h : q < 0) : intTrunc q = ⌈q⌉ := if_neg (not_le.mpr h)

lemma intTrunc_intCast (m : ℤ) : intTrunc (m : ℚ) = m := by
  unfold intTrunc
  split
  · exact Int.floor_intCast m
  · exact Int.ceil_intCast m

lemma step_pos {zmin zmax : ℚ} {n : ℕ} (h1 : zmin < zmax) (h2 : 1 ≤ n) :
    0 < (zmax - zmin) / (n : ℚ) := by
  apply div_pos (by linarith)
  exact_mod_cast Nat.lt_of_lt_of_le Nat.zero_lt_one h2

lemma rawIndex_nonneg {zmin zmax p : ℚ} {n : ℕ} (h1 : zmin < zmax) (h2 : 1 ≤ n)
    (hp : zmin ≤ p) : 0 ≤ rawIndex zmin zmax n p :=
  div_nonneg (by linarith) (le_of_lt (step_pos h1 h2))

lemma rawIndex_le {zmin zmax p : ℚ} {n : ℕ} (h1 : zmin < zmax) (h2 : 1 ≤ n)
    (hp : p ≤ zmax) : rawIndex zmin zmax n p ≤ (n : ℚ) := by
  have hn : ((n : ℚ)) ≠ 0 := by
    have : (0 : ℚ) < n := by exact_mod_cast Nat.lt_of_lt_of_le Nat.zero_lt_one h2
    exact ne_of_gt this
  unfold rawIndex
  rw [div_le_iff₀ (step_pos h1 h2), mul_comm, div_mul_cancel₀ _ hn]
  linarith

lemma rawIndex_zmin (zmin zmax : ℚ) (n : ℕ) : rawIndex zmin zmax n zmin = 0 := by
  simp [rawIndex]

lemma rawIndex_zmax {zmin zmax : ℚ} {n : ℕ} (h1 : zmin < zmax) (h2 : 1 ≤ n) :
    rawIndex zmin zmax n zmax = (n : ℚ) := by
  have ha : zmax - zmin ≠ 0 := ne_of_gt (by linarith)
  have hn : ((n : ℚ)) ≠ 0 := by
    have : (0 : ℚ) < n := by exact_mod_cast Nat.lt_of_lt_of_le Nat.zero_lt_one h2
    exact ne_of_gt this
  unfold rawIndex
  rw [div_div_eq_mul_div, mul_comm, mul_div_assoc, div_self ha, mul_one]

/-- The three-way case split performed by `__zposToIndex` once `ntexs ≥ 1`
(the two boundary checks can then not both fire). -/
lemma zposToIndex_cases (zmin zmax p : ℚ) (n : ℕ) (h2 : 1 ≤ n) :
    zposToIndex zmin zmax n p =
      if |rawIndex zmin zmax n p| < 1 / 100 then 0
      else if |rawIndex zmin zmax n p - (n : ℚ)| < 1 / 100 then (n : ℤ) - 1
      else intTrunc (rawIndex zmin zmax n p) := by
  have hn1 : (1 : ℚ) ≤ (n : ℚ) := by exact_mod_cast h2
  simp only [zposToIndex]
  by_cases hA : |rawIndex zmin zmax n p| < 1 / 100
  · have hB : ¬ |(0 : ℚ) - (n : ℚ)| < 1 / 100 := by
      rw [zero_sub, abs_neg, abs_of_nonneg (by linarith)]
      linarith
    rw [if_pos hA, if_pos hA, if_neg hB]
    simp [intTrunc]
  · rw [if_neg hA, if_neg hA]
    by_cases hB : |rawIndex zmin zmax n p - (n : ℚ)| < 1 / 100
    · rw [if_pos hB, if_pos hB]
      have hcast : ((n : ℚ) - 1) = (((n : ℤ) - 1 : ℤ) : ℚ) := by push_cast; ring
      rw [hcast, intTrunc_intCast]
    · rw [if_neg hB, if_neg hB]

/-- For a position inside `[zmin, zmax]` the computed index lands in
`[0, ntexs - 1]`. -/
lemma zposToIndex_mem {zmin zmax p : ℚ} {n : ℕ} (h1 : zmin < zmax) (h2 : 1 ≤ n)
    (hp1 : zmin ≤ p) (hp2 : p ≤ zmax) :
    0 ≤ zposToIndex zmin zmax n p ∧ zposToIndex zmin zmax n p < (n : ℤ) := by
  have h0r := rawIndex_nonneg h1 h2 hp1
  have hrn := rawIndex_le h1 h2 hp2
  have hn1 : (1 : ℤ) ≤ (n : ℤ) := by exact_mod_cast h2
  rw [zposToIndex_cases zmin zmax p n h2]
  by_cases hA : |rawIndex zmin zmax n p| < 1 / 100
  · rw [if_pos hA]
    omega
  · rw [if_neg hA]
    by_cases hB : |rawIndex zmin zmax n p - (n : ℚ)| < 1 / 100
    · rw [if_pos hB]
      omega
    · rw [if_neg hB, intTrunc_of_nonneg h0r]
      constructor
      · exact Int.floor_nonneg.mpr h0r
      · rw [Int.floor_lt]
        have habs : |rawIndex zmin zmax n p - (n : ℚ)| = (n : ℚ) - rawIndex zmin zmax n p := by
          rw [abs_of_nonpos (by linarith)]
          ring
        rw [habs] at hB
        push_cast
        linarith [not_lt.mp hB]

/-- C5: for every slice range `(zMin, zMax)` with `zMin < zMax` and every
slot count `N ≥ 1`, `posToIndex(zMin) = 0` and `posToIndex(zMax) = N - 1`
exactly (not `N` and not `-1`): the boundary tolerance of `__zposToIndex`
maps the exact endpoints to the first and last texture index. -/
theorem zposToIndex_boundary (zmin zmax : ℚ) (n : ℕ) (h1 : zmin < zmax) (h2 : 1 ≤ n) :
    zposToIndex zmin zmax n zmin = 0 ∧ zposToIndex zmin zmax n zmax = (n : ℤ) - 1 := by
  have hn1 : (1 : ℚ) ≤ (n : ℚ) := by exact_mod_cast h2
  constructor
  · rw [zposToIndex_cases zmin zmax zmin n h2, rawIndex_zmin, if_pos]
    rw [abs_zero]
    norm_num
  · rw [zposToIndex_cases zmin zmax zmax n h2, rawIndex_zmax h1 h2]
    have hA : ¬ |(n : ℚ)| < 1 / 100 := by
      rw [abs_of_nonneg (by linarith)]
      linarith
    rw [if_neg hA, if_pos]
    rw [sub_self, abs_zero]
    norm_num

/-- C5 witness: `zMin = 0`, `zMax = 4`, `N = 4`. -/
theorem zposToIndex_boundary_witness :
    (0 : ℚ) < 4 ∧ 1 ≤ 4 ∧
      (zposToIndex 0 4 4 0 = 0 ∧ zposToIndex 0 4 4 4 = (4 : ℤ) - 1) :=
  ⟨by decide, by decide, zposToIndex_boundary 0 4 4 (by decide) (by decide)⟩

/-- C1: for every slice range `(zMin, zMax)` with `zMin < zMax`, every slot
count `N ≥ 1` and every position `p ∈ [zMin, zMax]`,
`indexToPos(posToIndex(p))` is within one `step = (zMax - zMin) / N` of
`p`. -/
theorem indexToZpos_zposToIndex_roundTrip (zmin zmax p : ℚ) (n : ℕ)
    (h1 : zmin < zmax) (h2 : 1 ≤ n) (hp1 : zmin ≤ p) (hp2 : p ≤ zmax) :
    |indexToZpos zmin zmax n (zposToIndex zmin zmax n p) - p| ≤ (zmax - zmin) / (n : ℚ) := by
  set s : ℚ := (zmax - zmin) / (n : ℚ) with hs
  have hspos : 0 < s := step_pos h1 h2
  set r : ℚ := rawIndex zmin zmax n p with hr
  have h0r : 0 ≤ r := rawIndex_nonneg h1 h2 hp1
  have hrn : r ≤ (n : ℚ) := rawIndex_le h1 h2 hp2
  have hrs : r * s = p - zmin := by
    rw [hr, hs]
    unfold rawIndex
    exact div_mul_cancel₀ _ (ne_of_gt hspos)
  set i : ℤ := zposToIndex zmin zmax n p with hi
  have hzi : indexToZpos zmin zmax n i = (i : ℚ) * s + zmin + 1 / 2 * s := by
    simp only [indexToZpos, hs]
    rw [mul_div_assoc]
    ring
  have hkey : |(i : ℚ) + 1 / 2 - r| ≤ 1 := by
    rw [hi, zposToIndex_cases zmin zmax p n h2, ← hr]
    by_cases hA : |r| < 1 / 100
    · rw [if_pos hA]
      have := (abs_lt.mp hA).2
      rw [abs_le]
      constructor <;> push_cast <;> linarith
    · rw [if_neg hA]
      by_cases hB : |r - (n : ℚ)| < 1 / 100
      · rw [if_pos hB]
        have hlow := (abs_lt.mp hB).1
        rw [abs_le]
        constructor <;> push_cast <;> linarith
      · rw [if_neg hB, intTrunc_of_nonneg h0r]
        have hfl := Int.floor_le r
        have hfg := Int.sub_one_lt_floor r
        rw [abs_le]
        constructor <;> linarith
  have hdiff : indexToZpos zmin zmax n i - p = ((i : ℚ) + 1 / 2 - r) * s := by
    have hp' : p = zmin + r * s := by linarith
    rw [hzi, hp']
    ring
  calc |indexToZpos zmin zmax n i - p|
      = |(i : ℚ) + 1 / 2 - r| * s := by rw [hdiff, abs_mul, abs_of_pos hspos]
    _ ≤ 1 * s := mul_le_mul_of_nonneg_right hkey (le_of_lt hspos)
    _ = s := one_mul s

/-- C1 witness: `zMin = 0`, `zMax = 4`, `N = 4`, `p = 2`. -/
theorem indexToZpos_zposToIndex_roundTrip_witness :
    (0 : ℚ) < 4 ∧ 1 ≤ 4 ∧ (0 : ℚ) ≤ 2 ∧ (2 : ℚ) ≤ 4 ∧
      |indexToZpos 0 4 4 (zposToIndex 0 4 4 2) - 2| ≤ (4 - 0) / (4 : ℚ) :=
  ⟨by decide, by decide, by decide, by decide,
    indexToZpos_zposToIndex_roundTrip 0 4 2 4 (by decide) (by decide) (by decide) (by decide)⟩

/-- C2 counterexample: the claim says the returned index is always clamped
into `[0, N-1]`, but `__zposToIndex` performs no such clamping: with
`zMin = 0`, `zMax = 1`, `N = 1` and `p = 2` the raw index is `2`, neither
boundary tolerance fires, and the function returns `2`, which is above
`N - 1 = 0`. -/
theorem zposToIndex_not_clamped :
    zposToIndex 0 1 1 2 = 2 ∧ ¬ (zposToIndex 0 1 1 2 ≤ (1 : ℤ) - 1) := by
  constructor
  · norm_num [zposToIndex, rawIndex, intTrunc]
  · norm_num [zposToIndex, rawIndex, intTrunc]

/-- C2 amended: `__zposToIndex` computes `(pos - zMin) / step`, applies the
epsilon tolerance at the two boundaries on the real-valued index, and then
truncates toward zero; no clamping into `[0, N-1]` is applied, so the
returned index is only guaranteed to lie in `[0, N-1]` for positions `p`
inside `[zMin, zMax]` (positions far outside the range produce
out-of-range indices). -/
theorem zposToIndex_in_range_of_mem (zmin zmax p : ℚ) (n : ℕ)
    (h1 : zmin < zmax) (h2 : 1 ≤ n) (hp1 : zmin ≤ p) (hp2 : p ≤ zmax) :
    0 ≤ zposToIndex zmin zmax n p ∧ zposToIndex zmin zmax n p ≤ (n : ℤ) - 1 := by
  have h := zposToIndex_mem h1 h2 hp1 hp2
  omega

/-- C2 witness: `zMin = 0`, `zMax = 4`, `N = 4`, `p = 2`. -/
theorem zposToIndex_in_range_of_mem_witness :
    (0 : ℚ) < 4 ∧ 1 ≤ 4 ∧ (0 : ℚ) ≤ 2 ∧ (2 : ℚ) ≤ 4 ∧
      (0 ≤ zposToIndex 0 4 4 2 ∧ zposToIndex 0 4 4 2 ≤ (4 : ℤ) - 1) :=
  ⟨by decide, by decide, by decide, by decide,
    zposToIndex_in_range_of_mem 0 4 2 4 (by decide) (by decide) (by decide) (by decide)⟩

lemma roundRobin_nil_right (xs : List ℤ) : roundRobin xs [] = xs := by
  cases xs <;> simp [roundRobin]

lemma roundRobin_perm_aux :
    ∀ (m : ℕ) (a b : List ℤ),
      a.length + b.length ≤ m → List.Perm (roundRobin a b) (a ++ b) := by
  intro m
  induction m with
  | zero =>
    intro a b h
    have ha : a = [] := List.eq_nil_of_length_eq_zero (by omega)
    have hb : b = [] := List.eq_nil_of_length_eq_zero (by omega)
    subst ha hb
    simp [roundRobin]
  | succ m ih =>
    intro a b h
    cases a with
    | nil => simp [roundRobin]
    | cons x xs =>
      have hperm : List.Perm (roundRobin b xs) (b ++ xs) := by
        apply ih
        simp at h
        omega
      have hstep : roundRobin (x :: xs) b = x :: roundRobin b xs := by
        simp [roundRobin]
      rw [hstep]
      exact (hperm.cons x).trans ((List.perm_append_comm).cons x)

/-- Round-robin interleaving is a permutation of the concatenation. -/
lemma roundRobin_perm (a b : List ℤ) : List.Perm (roundRobin a b) (a ++ b) :=
  roundRobin_perm_aux (a.length + b.length) a b le_rfl

/-- With enough fuel (one iteration per element), the loop of
`__refreshAllTextures` computes exactly the round-robin interleaving of
the two index lists: the even/odd test on the loop counter alternates the
lists while both are non-empty, then the remainder of the surviving list
is drained in order. -/
lemma refreshLoop_eq_roundRobin :
    ∀ (fuel i : ℕ) (above below : List ℤ),
      above.length + below.length = fuel →
      refreshLoop i fuel above below =
        some (if i % 2 = 0 then roundRobin above below else roundRobin below above) := by
  intro fuel
  induction fuel with
  | zero =>
    intro i above below h
    have ha : above = [] := List.eq_nil_of_length_eq_zero (by omega)
    have hb : below = [] := List.eq_nil_of_length_eq_zero (by omega)
    subst ha hb
    simp [refreshLoop, roundRobin]
  | succ fuel ih =>
    intro i above below h
    cases above with
    | nil =>
      cases below with
      | nil => simp at h
      | cons b bs =>
        rw [show refreshLoop i (fuel + 1) [] (b :: bs)
              = (refreshLoop (i + 1) fuel [] bs).map (b :: ·) from rfl]
        rw [ih (i + 1) [] bs (by simp at h ⊢; omega)]
        rcases Nat.even_or_odd i with he | ho
        · have h1 : i % 2 = 0 := Nat.even_iff.mp he
          have h2 : ¬ ((i + 1) % 2 = 0) := by omega
          simp [h1, h2, roundRobin, roundRobin_nil_right]
        · have h1 : ¬ (i % 2 = 0) := by
            have := Nat.odd_iff.mp ho
            omega
          have h2 : (i + 1) % 2 = 0 := by
            have := Nat.odd_iff.mp ho
            omega
          simp [h1, h2, roundRobin, roundRobin_nil_right]
    | cons a as_ =>
      cases below with
      | nil =>
        rw [show refreshLoop i (fuel + 1) (a :: as_) []
              = (refreshLoop (i + 1) fuel as_ []).map (a :: ·) from rfl]
        rw [ih (i + 1) as_ [] (by simp at h ⊢; omega)]
        rcases Nat.even_or_odd (i + 1) with he | ho
        · have h2 : (i + 1) % 2 = 0 := Nat.even_iff.mp he
          have h1 : ¬ (i % 2 = 0) := by omega
          simp [h1, h2, roundRobin, roundRobin_nil_right]
        · have h2 : ¬ ((i + 1) % 2 = 0) := by
            have := Nat.odd_iff.mp ho
            omega
          have h1 : i % 2 = 0 := by
            have := Nat.odd_iff.mp ho
            omega
          simp [h1, h2, roundRobin, roundRobin_nil_right]
      | cons b bs =>
        by_cases hi : i % 2 = 1
        · rw [show refreshLoop i (fuel + 1) (a :: as_) (b :: bs)
                = if i % 2 = 1 then (refreshLoop (i + 1) fuel (a :: as_) bs).map (b :: ·)
                  else (refreshLoop (i + 1) fuel as_ (b :: bs)).map (a :: ·) from rfl]
          rw [if_pos hi, ih (i + 1) (a :: as_) bs (by simp at h ⊢; omega)]
          have h2 : (i + 1) % 2 = 0 := by omega
          have h1 : ¬ (i % 2 = 0) := by omega
          simp [h1, h2, roundRobin]
        · rw [show refreshLoop i (fuel + 1) (a :: as_) (b :: bs)
                = if i % 2 = 1 then (refreshLoop (i + 1) fuel (a :: as_) bs).map (b :: ·)
                  else (refreshLoop (i + 1) fuel as_ (b :: bs)).map (a :: ·) from rfl]
          rw [if_neg hi, ih (i + 1) as_ (b :: bs) (by simp at h ⊢; omega)]
          have h1 : i % 2 = 0 := by omega
          have h2 : ¬ ((i + 1) % 2 = 0) := by omega
          simp [h1, h2, roundRobin]

lemma pyRange_length (a b : ℤ) : (pyRange a b).length = (b - a).toNat := by
  unfold pyRange
  rw [List.length_map, List.length_range]

lemma pyRangeDown_length (a : ℤ) : (pyRangeDown a).length = (a + 1).toNat := by
  unfold pyRangeDown
  rw [List.length_map, List.length_range]

lemma pyRange_empty {a b : ℤ} (h : b ≤ a) : pyRange a b = [] := by
  unfold pyRange
  rw [show (b - a).toNat = 0 from by omega]
  rfl

lemma pyRange_cons {a b : ℤ} (h : a < b) : pyRange a b = a :: pyRange (a + 1) b := by
  unfold pyRange
  rw [show (b - a).toNat = (b - (a + 1)).toNat + 1 from by omega,
      List.range_succ_eq_map]
  rw [List.map_cons, List.map_map]
  refine congrArg₂ _ (by simp) ?_
  apply List.map_congr_left
  intro i _
  simp [Function.comp]
  ring

lemma pyRange_snoc {a b : ℤ} (h : a ≤ b) : pyRange a (b + 1) = pyRange a b ++ [b] := by
  unfold pyRange
  rw [show (b + 1 - a).toNat = (b - a).toNat + 1 from by omega, List.range_succ]
  rw [List.map_append]
  refine congrArg _ ?_
  rw [List.map_singleton]
  rw [show ((b - a).toNat : ℤ) = b - a from Int.toNat_of_nonneg (by omega)]
  norm_num

lemma pyRange_append :
    ∀ (n : ℕ) (a b c : ℤ), a ≤ b → b ≤ c → b - a = n →
      pyRange a b ++ pyRange b c = pyRange a c := by
  intro n
  induction n with
  | zero =>
    intro a b c hab hbc h0
    rw [show a = b from by omega]
    rw [pyRange_empty le_rfl]
    rfl
  | succ n ih =>
    intro a b c hab hbc hn
    rw [pyRange_cons (show a < b from by omega),
        pyRange_cons (show a < c from by omega), List.cons_append]
    refine congrArg _ ?_
    exact ih (a + 1) b c (by omega) hbc (by omega)

lemma pyRangeDown_succ (n : ℕ) :
    pyRangeDown ((n : ℤ) + 1) = ((n : ℤ) + 1) :: pyRangeDown (n : ℤ) := by
  unfold pyRangeDown
  rw [show ((n : ℤ) + 1 + 1).toNat = ((n : ℤ) + 1).toNat + 1 from by omega,
      List.range_succ_eq_map]
  rw [List.map_cons, List.map_map]
  refine congrArg₂ _ (by simp) ?_
  apply List.map_congr_left
  intro i _
  simp [Function.comp]

lemma pyRangeDown_perm_aux :
    ∀ n : ℕ, List.Perm (pyRangeDown (n : ℤ)) (pyRange 0 ((n : ℤ) + 1)) := by
  intro n
  induction n with
  | zero => decide
  | succ n ih =>
    rw [show ((n + 1 : ℕ) : ℤ) = (n : ℤ) + 1 from by push_cast; ring,
        pyRangeDown_succ n, pyRange_snoc (show (0 : ℤ) ≤ (n : ℤ) + 1 from by omega)]
    refine (ih.cons ((n : ℤ) + 1)).trans ?_
    exact (List.perm_append_singleton ((n : ℤ) + 1) (pyRange 0 ((n : ℤ) + 1))).symm

/-- `range(k - 1, -1, -1)` is a permutation of `range(0, k)`. -/
lemma pyRangeDown_perm {k : ℤ} (hk : 0 ≤ k) :
    List.Perm (pyRangeDown (k - 1)) (pyRange 0 k) := by
  rcases Int.eq_ofNat_of_zero_le hk with ⟨n, rfl⟩
  cases n with
  | zero => decide
  | succ n =>
    have h1 : ((n + 1 : ℕ) : ℤ) - 1 = (n : ℤ) := by push_cast; ring
    have h2 : ((n + 1 : ℕ) : ℤ) = (n : ℤ) + 1 := by push_cast; ring
    rw [h1, h2]
    exact pyRangeDown_perm_aux n

/-- The interleaved queue built from a last index `k ∈ [0, N)` is a
permutation of `range(0, N)`. -/
lemma queue_perm {N : ℕ} {k : ℤ} (hk0 : 0 ≤ k) (hkN : k < (N : ℤ)) :
    List.Perm (roundRobin (pyRange k N) (pyRangeDown (k - 1))) (pyRange 0 N) := by
  refine (roundRobin_perm _ _).trans ?_
  refine (List.Perm.append_left (pyRange k N) (pyRangeDown_perm hk0)).trans ?_
  refine (List.perm_append_comm).trans ?_
  exact (pyRange_append k.toNat 0 k N (by omega) (by omega) (by omega)).symm ▸ List.Perm.refl _

/-- C3: for every slot count `N ≥ 1` and every `lastServedIndex` value —
`some k` with `k ∈ [0, N-1]`, or `none`, in which case the default
`N / 2` (integer division) is used — the queue built by
`__refreshAllTextures` is the round-robin interleaving of the ascending
list `[k .. N-1]` with the descending list `[k-1 .. 0]`, has length `N`,
and visits every index in `[0, N-1]` exactly once (it is a permutation of
`range(0, N)`). -/
theorem refreshAllQueue_covers (N : ℕ) (ld : Option ℤ) (hN : 1 ≤ N)
    (hld : ∀ k, ld = some k → 0 ≤ k ∧ k < (N : ℤ)) :
    ∃ q, refreshAllQueue N ld = some q ∧
      q = roundRobin (pyRange (lastIdxOf N ld) N) (pyRangeDown (lastIdxOf N ld - 1)) ∧
      q.length = N ∧
      List.Perm q (pyRange 0 N) := by
  have hk : 0 ≤ lastIdxOf N ld ∧ lastIdxOf N ld < (N : ℤ) := by
    cases ld with
    | some k => exact hld k rfl
    | none =>
      rw [show lastIdxOf N none = (N : ℤ) / 2 from rfl]
      constructor <;> omega
  have hlen : (pyRange (lastIdxOf N ld) N).length
      + (pyRangeDown (lastIdxOf N ld - 1)).length = N := by
    rw [pyRange_length, pyRangeDown_length]
    omega
  have hloop := refreshLoop_eq_roundRobin N 0
    (pyRange (lastIdxOf N ld) N) (pyRangeDown (lastIdxOf N ld - 1)) hlen
  have hperm := queue_perm hk.1 hk.2
  refine ⟨_, ?_, rfl, ?_, hperm⟩
  · simp only [refreshAllQueue]
    rw [hloop]
    norm_num
  · rw [hperm.length_eq, pyRange_length]
    omega

/-- C3 witness: `N = 6`, `lastServedIndex = 4`. -/
theorem refreshAllQueue_covers_witness :
    1 ≤ 6 ∧ (∀ k : ℤ, some (4 : ℤ) = some k → 0 ≤ k ∧ k < (6 : ℤ)) ∧
      (∃ q, refreshAllQueue 6 (some 4) = some q ∧
        q = roundRobin (pyRange (lastIdxOf 6 (some 4)) 6)
              (pyRangeDown (lastIdxOf 6 (some 4) - 1)) ∧
        q.length = 6 ∧
        List.Perm q (pyRange 0 6)) :=
  ⟨by decide,
   by
    intro k hk
    injection hk with h
    subst h
    decide,
   refreshAllQueue_covers 6 (some 4) (by decide)
     (by
      intro k hk
      injection hk with h
      subst h
      decide)⟩

/-- C4 counterexample: with `N = 6` and `lastServedIndex = 4`,
`__refreshAllTextures` does NOT produce the queue `[4, 5, 3, 2, 1, 0]`
stated by the claim: `aboveIdxs = [4, 5]` has two elements, so the
alternation takes `4`, then `3` from below, then `5`, giving
`[4, 3, 5, 2, 1, 0]`. -/
theorem refreshQueue_N6_last4_ne_claimed :
    refreshAllQueue 6 (some 4) ≠ some [4, 5, 3, 2, 1, 0] := by decide

/-- C4 amended: with `N = 6` slots and `lastServedIndex = 4`, the queue
built by `__refreshAllTextures` is `[4, 3, 5, 2, 1, 0]` (strict
alternation of `[4, 5]` and `[3, 2, 1, 0]` until the above-list is
exhausted after its second element). -/
theorem refreshQueue_N6_last4 :
    refreshAllQueue 6 (some 4) = some [4, 3, 5, 2, 1, 0] := by decide

lemma refreshAllTextures_of_some {s : Stack} {q : List ℤ}
    (h : refreshAllQueue s.ntexs s.lastDrawnTexture = some q) :
    refreshAllTextures s =
      { s with
          textureDirty := List.replicate s.ntexs true
          updateQueue := q
          pending := s.pending + 1 } := by
  unfold refreshAllTextures
  rw [h]

lemma refreshAllTextures_fields {s : Stack}
    (h : (refreshAllQueue s.ntexs s.lastDrawnTexture).isSome = true) :
    (refreshAllTextures s).pending = s.pending + 1 ∧
      (refreshAllTextures s).ntexs = s.ntexs ∧
      (refreshAllTextures s).lastDrawnTexture = s.lastDrawnTexture := by
  obtain ⟨q, hq⟩ := Option.isSome_iff_exists.mp h
  rw [refreshAllTextures_of_some hq]
  exact ⟨rfl, rfl, rfl⟩

/-- C6 counterexample: two back-to-back `invalidateAll` calls (each ending
in an unconditional `async.idle(self.__textureUpdateLoop)`) leave two
refresh ticks pending, not exactly one, starting from a 4-texture state
with no tick pending. -/
theorem invalidateAll_twice_two_pending :
    (refreshAllTextures (refreshAllTextures
        (Stack.mk 0 1 4 (List.replicate 4 true) [] none 0))).pending = 2 ∧
      (refreshAllTextures (refreshAllTextures
        (Stack.mk 0 1 4 (List.replicate 4 true) [] none 0))).pending ≠ 1 := by
  decide

/-- C6 amended: `__refreshAllTextures` ends in an unconditional
`async.idle` call, so each `invalidateAll` enqueues one more refresh tick:
two calls in a row, with no ticks executing in between, leave two ticks
pending rather than one (the enqueue is not idempotent; a surplus tick is
harmless only because a tick that finds an empty queue is a no-op). -/
theorem invalidateAll_twice_pending_adds_two (s : Stack)
    (h : (refreshAllQueue s.ntexs s.lastDrawnTexture).isSome = true) :
    (refreshAllTextures (refreshAllTextures s)).pending = s.pending + 2 := by
  obtain ⟨hp1, hn1, hl1⟩ := refreshAllTextures_fields h
  have h2 : (refreshAllQueue (refreshAllTextures s).ntexs
      (refreshAllTextures s).lastDrawnTexture).isSome = true := by
    rw [hn1, hl1]
    exact h
  obtain ⟨hp2, _, _⟩ := refreshAllTextures_fields h2
  rw [hp2, hp1]

/-- C6 witness: the 4-texture state with no draw recorded. -/
theorem invalidateAll_twice_pending_adds_two_witness :
    (refreshAllQueue (Stack.mk 0 1 4 (List.replicate 4 true) [] none 0).ntexs
        (Stack.mk 0 1 4 (List.replicate 4 true) [] none 0).lastDrawnTexture).isSome = true ∧
      (refreshAllTextures (refreshAllTextures
          (Stack.mk 0 1 4 (List.replicate 4 true) [] none 0))).pending
        = (Stack.mk 0 1 4 (List.replicate 4 true) [] none 0).pending + 2 :=
  ⟨by decide, invalidateAll_twice_pending_adds_two _ (by decide)⟩

/-- C9: once `destroy()` has emptied the texture list, any refresh tick
that was already scheduled is a no-op: the guard at the top of
`__textureUpdateLoop` fires, so the tick returns without popping the
update queue, without touching any dirty flag or texture, and without
re-enqueueing itself — it only consumes its own pending slot. -/
theorem tick_after_destroy_noop (refreshOk : Bool) (s : Stack) :
    textureUpdateLoop refreshOk (destroyTextures s)
      = ({ destroyTextures s with pending := s.pending - 1 }, none) := by
  unfold textureUpdateLoop destroyTextures
  rw [if_pos (Or.inr rfl)]

/-- A draw always records `lastDrawnTexture = __zposToIndex(zpos)`,
whether or not the index passes the range guard. -/
lemma draw_lastDrawn (refreshOk : Bool) (s : Stack) (zpos : ℚ) :
    (draw refreshOk s zpos).1.lastDrawnTexture
      = some (zposToIndex s.zmin s.zmax s.ntexs zpos) := by
  simp only [draw]
  by_cases h : zposToIndex s.zmin s.zmax s.ntexs zpos < 0
      ∨ (s.ntexs : ℤ) ≤ zposToIndex s.zmin s.zmax s.ntexs zpos
  · rw [if_pos h]
  · rw [if_neg h]

/-- A draw never changes the number of textures. -/
lemma draw_ntexs (refreshOk : Bool) (s : Stack) (zpos : ℚ) :
    (draw refreshOk s zpos).1.ntexs = s.ntexs := by
  simp only [draw]
  by_cases h : zposToIndex s.zmin s.zmax s.ntexs zpos < 0
      ∨ (s.ntexs : ℤ) ≤ zposToIndex s.zmin s.zmax s.ntexs zpos
  · rw [if_pos h]
  · rw [if_neg h]

/-- C7 counterexample: in a 1-texture stack with `zmin = 0`, `zmax = 1`, a
draw at `zpos = 2` maps to raw index `2`; `draw` records
`lastDrawnTexture = 2` *before* the range guard, so after this draw the
state violates `0 ≤ lastServedIndex < N` (`2 ≥ N = 1`). -/
theorem draw_lastDrawn_can_leave_range :
    (draw true (Stack.mk 0 1 1 [true] [] none 0) 2).1.lastDrawnTexture = some 2 ∧
      ¬ ((2 : ℤ) < ((Stack.mk (0 : ℚ) 1 1 [true] [] none 0).ntexs : ℤ)) := by
  constructor
  · rw [draw_lastDrawn]
    norm_num [zposToIndex, rawIndex, intTrunc]
  · decide

/-- C7 amended: a draw records `lastServedIndex = posToIndex(zpos)`
unconditionally (before the range guard), and preserves the slot count;
when the requested position lies inside `[zmin, zmax]` (with
`zmin < zmax` and `N ≥ 1`) that recorded index satisfies
`0 ≤ lastServedIndex < N`, but a draw whose position maps outside the
slot range records an out-of-range index, so the invariant is not
preserved by every draw. -/
theorem draw_lastDrawn_in_range (refreshOk : Bool) (s : Stack) (zpos : ℚ)
    (h1 : s.zmin < s.zmax) (h2 : 1 ≤ s.ntexs)
    (hp1 : s.zmin ≤ zpos) (hp2 : zpos ≤ s.zmax) :
    (draw refreshOk s zpos).1.lastDrawnTexture
        = some (zposToIndex s.zmin s.zmax s.ntexs zpos) ∧
      0 ≤ zposToIndex s.zmin s.zmax s.ntexs zpos ∧
      zposToIndex s.zmin s.zmax s.ntexs zpos < (s.ntexs : ℤ) ∧
      (draw refreshOk s zpos).1.ntexs = s.ntexs := by
  have hm := zposToIndex_mem h1 h2 hp1 hp2
  exact ⟨draw_lastDrawn refreshOk s zpos, hm.1, hm.2, draw_ntexs refreshOk s zpos⟩

/-- C7 witness: a 4-texture stack over `[0, 4]`, drawn at `zpos = 2`. -/
theorem draw_lastDrawn_in_range_witness :
    (Stack.mk (0 : ℚ) 4 4 (List.replicate 4 true) [] none 0).zmin
        < (Stack.mk (0 : ℚ) 4 4 (List.replicate 4 true) [] none 0).zmax ∧
      1 ≤ (Stack.mk (0 : ℚ) 4 4 (List.replicate 4 true) [] none 0).ntexs ∧
      (Stack.mk (0 : ℚ) 4 4 (List.replicate 4 true) [] none 0).zmin ≤ 2 ∧
      (2 : ℚ) ≤ (Stack.mk (0 : ℚ) 4 4 (List.replicate 4 true) [] none 0).zmax ∧
      ((draw true (Stack.mk (0 : ℚ) 4 4 (List.replicate 4 true) [] none 0) 2).1.lastDrawnTexture
          = some (zposToIndex (Stack.mk (0 : ℚ) 4 4 (List.replicate 4 true) [] none 0).zmin
              (Stack.mk (0 : ℚ) 4 4 (List.replicate 4 true) [] none 0).zmax
              (Stack.mk (0 : ℚ) 4 4 (List.replicate 4 true) [] none 0).ntexs 2) ∧
        0 ≤ zposToIndex (Stack.mk (0 : ℚ) 4 4 (List.replicate 4 true) [] none 0).zmin
            (Stack.mk (0 : ℚ) 4 4 (List.replicate 4 true) [] none 0).zmax
            (Stack.mk (0 : ℚ) 4 4 (List.replicate 4 true) [] none 0).ntexs 2 ∧
        zposToIndex (Stack.mk (0 : ℚ) 4 4 (List.replicate 4 true) [] none 0).zmin
            (Stack.mk (0 : ℚ) 4 4 (List.replicate 4 true) [] none 0).zmax
            (Stack.mk (0 : ℚ) 4 4 (List.replicate 4 true) [] none 0).ntexs 2
          < ((Stack.mk (0 : ℚ) 4 4 (List.replicate 4 true) [] none 0).ntexs : ℤ) ∧
        (draw true (Stack.mk (0 : ℚ) 4 4 (List.replicate 4 true) [] none 0) 2).1.ntexs
          = (Stack.mk (0 : ℚ) 4 4 (List.replicate 4 true) [] none 0).ntexs) :=
  ⟨by decide, by decide, by decide, by decide,
    draw_lastDrawn_in_range true (Stack.mk (0 : ℚ) 4 4 (List.replicate 4 true) [] none 0) 2
      (by decide) (by decide) (by decide) (by decide)⟩

/-- A draw whose index fails the range guard changes nothing but the
recorded `lastDrawnTexture`, and serves no texture. -/
lemma draw_out_of_range {s : Stack} (refreshOk : Bool) (zpos : ℚ)
    (h : zposToIndex s.zmin s.zmax s.ntexs zpos < 0
        ∨ (s.ntexs : ℤ) ≤ zposToIndex s.zmin s.zmax s.ntexs zpos) :
    draw refreshOk s zpos
      = ({ s with lastDrawnTexture := some (zposToIndex s.zmin s.zmax s.ntexs zpos) },
         none) := by
  simp only [draw]
  rw [if_pos h]

/-- C10 counterexample: with `zMin = 0`, `zMax = 1`, `N = 1` and
`p = -1/2`, the raw index `-1/2` is neither within `0.01` of `0` nor
within `0.01` of `N`, so the claim predicts an out-of-range index and a
no-op draw; but `int()` truncation toward zero maps `-1/2` to `0`, which
is in range, and the draw serves slot `0`. -/
theorem zposToIndex_truncation_rescues_negative :
    rawIndex 0 1 1 (-1/2) = -1/2 ∧
      ¬ |rawIndex 0 1 1 (-1/2)| < 1/100 ∧
      ¬ |rawIndex 0 1 1 (-1/2) - ((1 : ℕ) : ℚ)| < 1/100 ∧
      zposToIndex 0 1 1 (-1/2) = 0 ∧
      (draw true (Stack.mk 0 1 1 [false] [] none 0) (-1/2)).2 = some 0 := by
  have hraw : rawIndex 0 1 1 (-1/2) = -1/2 := by
    norm_num [rawIndex]
  have hidx : zposToIndex 0 1 1 (-1/2) = 0 := by
    norm_num [zposToIndex, rawIndex, intTrunc, abs_neg, abs_of_nonneg]
  refine ⟨hraw, ?_, ?_, hidx, ?_⟩
  · rw [hraw]
    norm_num [abs_of_nonpos]
  · rw [hraw]
    norm_num [abs_of_nonpos]
  · have h0 : zposToIndex (Stack.mk (0 : ℚ) 1 1 [false] [] none 0).zmin
        (Stack.mk (0 : ℚ) 1 1 [false] [] none 0).zmax
        (Stack.mk (0 : ℚ) 1 1 [false] [] none 0).ntexs (-1/2) = 0 := hidx
    simp only [draw, h0]
    norm_num [pyListGet]

/-- C10 amended: the boundary tolerance of `__zposToIndex` accepts
positions slightly outside `[zMin, zMax]`: a raw index within `0.01` of
`0` maps to `0` and one within `0.01` of `N` maps to `N - 1`.  In
addition — contrary to the claim — every raw index in `(-1, 0)` also maps
to index `0`, because `int()` truncates toward zero.  Only a raw index
`≤ -1` yields a negative index, and only one `≥ N + 0.01` yields an index
`≥ N`; for those out-of-range indices `draw` records the index and
silently does nothing. -/
theorem zposToIndex_outside_range (s : Stack) (refreshOk : Bool) (zpos : ℚ)
    (h2 : 1 ≤ s.ntexs) :
    (|rawIndex s.zmin s.zmax s.ntexs zpos| < 1/100 →
        zposToIndex s.zmin s.zmax s.ntexs zpos = 0) ∧
    (¬ |rawIndex s.zmin s.zmax s.ntexs zpos| < 1/100 →
      |rawIndex s.zmin s.zmax s.ntexs zpos - (s.ntexs : ℚ)| < 1/100 →
        zposToIndex s.zmin s.zmax s.ntexs zpos = (s.ntexs : ℤ) - 1) ∧
    (-1 < rawIndex s.zmin s.zmax s.ntexs zpos →
      rawIndex s.zmin s.zmax s.ntexs zpos < 0 →
        zposToIndex s.zmin s.zmax s.ntexs zpos = 0) ∧
    (rawIndex s.zmin s.zmax s.ntexs zpos ≤ -1 →
        zposToIndex s.zmin s.zmax s.ntexs zpos < 0) ∧
    ((s.ntexs : ℚ) + 1/100 ≤ rawIndex s.zmin s.zmax s.ntexs zpos →
        (s.ntexs : ℤ) ≤ zposToIndex s.zmin s.zmax s.ntexs zpos) ∧
    (zposToIndex s.zmin s.zmax s.ntexs zpos < 0
        ∨ (s.ntexs : ℤ) ≤ zposToIndex s.zmin s.zmax s.ntexs zpos →
      draw refreshOk s zpos
        = ({ s with lastDrawnTexture := some (zposToIndex s.zmin s.zmax s.ntexs zpos) },
           none)) := by
  have hn1 : (1 : ℚ) ≤ (s.ntexs : ℚ) := by exact_mod_cast h2
  have hcases := zposToIndex_cases s.zmin s.zmax zpos s.ntexs h2
  refine ⟨?_, ?_, ?_, ?_, ?_, fun h => draw_out_of_range refreshOk zpos h⟩
  · intro hA
    rw [hcases, if_pos hA]
  · intro hA hB
    rw [hcases, if_neg hA, if_pos hB]
  · intro hc1 hc2
    rw [hcases]
    by_cases hA : |rawIndex s.zmin s.zmax s.ntexs zpos| < 1/100
    · rw [if_pos hA]
    · have hB : ¬ |rawIndex s.zmin s.zmax s.ntexs zpos - (s.ntexs : ℚ)| < 1/100 := by
        rw [abs_of_nonpos (by linarith)]
        intro hlt
        linarith
      rw [if_neg hA, if_neg hB, intTrunc_of_neg hc2]
      have hle : ⌈rawIndex s.zmin s.zmax s.ntexs zpos⌉ ≤ 0 := by
        rw [Int.ceil_le]
        push_cast
        linarith
      have hgt : (-1 : ℤ) < ⌈rawIndex s.zmin s.zmax s.ntexs zpos⌉ := by
        rw [Int.lt_ceil]
        push_cast
        linarith
      omega
  · intro hd
    rw [hcases]
    have hA : ¬ |rawIndex s.zmin s.zmax s.ntexs zpos| < 1/100 := by
      rw [abs_of_nonpos (by linarith)]
      intro hlt
      linarith
    have hB : ¬ |rawIndex s.zmin s.zmax s.ntexs zpos - (s.ntexs : ℚ)| < 1/100 := by
      rw [abs_of_nonpos (by linarith)]
      intro hlt
      linarith
    rw [if_neg hA, if_neg hB, intTrunc_of_neg (by linarith)]
    have : ⌈rawIndex s.zmin s.zmax s.ntexs zpos⌉ ≤ -1 := by
      rw [Int.ceil_le]
      push_cast
      linarith
    omega
  · intro he
    rw [hcases]
    have hA : ¬ |rawIndex s.zmin s.zmax s.ntexs zpos| < 1/100 := by
      rw [abs_of_nonneg (by linarith)]
      intro hlt
      linarith
    have hB : ¬ |rawIndex s.zmin s.zmax s.ntexs zpos - (s.ntexs : ℚ)| < 1/100 := by
      rw [abs_of_nonneg (by linarith)]
      intro hlt
      linarith
    rw [if_neg hA, if_neg hB, intTrunc_of_nonneg (by linarith)]
    rw [Int.le_floor]
    push_cast
    linarith

/-- C10 witness: the 1-texture stack over `[0, 1]`, at `zpos = 3`. -/
theorem zposToIndex_outside_range_witness :
    1 ≤ (Stack.mk (0 : ℚ) 1 1 [true] [] none 0).ntexs ∧
      ((|rawIndex (Stack.mk (0 : ℚ) 1 1 [true] [] none 0).zmin
            (Stack.mk (0 : ℚ) 1 1 [true] [] none 0).zmax
            (Stack.mk (0 : ℚ) 1 1 [true] [] none 0).ntexs 3| < 1/100 →
          zposToIndex (Stack.mk (0 : ℚ) 1 1 [true] [] none 0).zmin
            (Stack.mk (0 : ℚ) 1 1 [true] [] none 0).zmax
            (Stack.mk (0 : ℚ) 1 1 [true] [] none 0).ntexs 3 = 0) ∧
        (¬ |rawIndex (Stack.mk (0 : ℚ) 1 1 [true] [] none 0).zmin
              (Stack.mk (0 : ℚ) 1 1 [true] [] none 0).zmax
              (Stack.mk (0 : ℚ) 1 1 [true] [] none 0).ntexs 3| < 1/100 →
          |rawIndex (Stack.mk (0 : ℚ) 1 1 [true] [] none 0).zmin
              (Stack.mk (0 : ℚ) 1 1 [true] [] none 0).zmax
              (Stack.mk (0 : ℚ) 1 1 [true] [] none 0).ntexs 3
            - ((Stack.mk (0 : ℚ) 1 1 [true] [] none 0).ntexs : ℚ)| < 1/100 →
          zposToIndex (Stack.mk (0 : ℚ) 1 1 [true] [] none 0).zmin
              (Stack.mk (0 : ℚ) 1 1 [true] [] none 0).zmax
              (Stack.mk (0 : ℚ) 1 1 [true] [] none 0).ntexs 3
            = ((Stack.mk (0 : ℚ) 1 1 [true] [] none 0).ntexs : ℤ) - 1) ∧
        (-1 < rawIndex (Stack.mk (0 : ℚ) 1 1 [true] [] none 0).zmin
              (Stack.mk (0 : ℚ) 1 1 [true] [] none 0).zmax
              (Stack.mk (0 : ℚ) 1 1 [true] [] none 0).ntexs 3 →
          rawIndex (Stack.mk (0 : ℚ) 1 1 [true] [] none 0).zmin
              (Stack.mk (0 : ℚ) 1 1 [true] [] none 0).zmax
              (Stack.mk (0 : ℚ) 1 1 [true] [] none 0).ntexs 3 < 0 →
          zposToIndex (Stack.mk (0 : ℚ) 1 1 [true] [] none 0).zmin
              (Stack.mk (0 : ℚ) 1 1 [true] [] none 0).zmax
              (Stack.mk (0 : ℚ) 1 1 [true] [] none 0).ntexs 3 = 0) ∧
        (rawIndex (Stack.mk (0 : ℚ) 1 1 [true] [] none 0).zmin
              (Stack.mk (0 : ℚ) 1 1 [true] [] none 0).zmax
              (Stack.mk (0 : ℚ) 1 1 [true] [] none 0).ntexs 3 ≤ -1 →
          zposToIndex (Stack.mk (0 : ℚ) 1 1 [true] [] none 0).zmin
              (Stack.mk (0 : ℚ) 1 1 [true] [] none 0).zmax
              (Stack.mk (0 : ℚ) 1 1 [true] [] none 0).ntexs 3 < 0) ∧
        (((Stack.mk (0 : ℚ) 1 1 [true] [] none 0).ntexs : ℚ) + 1/100
            ≤ rawIndex (Stack.mk (0 : ℚ) 1 1 [true] [] none 0).zmin
                (Stack.mk (0 : ℚ) 1 1 [true] [] none 0).zmax
                (Stack.mk (0 : ℚ) 1 1 [true] [] none 0).ntexs 3 →
          ((Stack.mk (0 : ℚ) 1 1 [true] [] none 0).ntexs : ℤ)
            ≤ zposToIndex (Stack.mk (0 : ℚ) 1 1 [true] [] none 0).zmin
                (Stack.mk (0 : ℚ) 1 1 [true] [] none 0).zmax
                (Stack.mk (0 : ℚ) 1 1 [true] [] none 0).ntexs 3) ∧
        (zposToIndex (Stack.mk (0 : ℚ) 1 1 [true] [] none 0).zmin
              (Stack.mk (0 : ℚ) 1 1 [true] [] none 0).zmax
              (Stack.mk (0 : ℚ) 1 1 [true] [] none 0).ntexs 3 < 0
            ∨ ((Stack.mk (0 : ℚ) 1 1 [true] [] none 0).ntexs : ℤ)
              ≤ zposToIndex (Stack.mk (0 : ℚ) 1 1 [true] [] none 0).zmin
                  (Stack.mk (0 : ℚ) 1 1 [true] [] none 0).zmax
                  (Stack.mk (0 : ℚ) 1 1 [true] [] none 0).ntexs 3 →
          draw true (Stack.mk (0 : ℚ) 1 1 [true] [] none 0) 3
            = ({ Stack.mk (0 : ℚ) 1 1 [true] [] none 0 with
                  lastDrawnTexture := some (zposToIndex
                    (Stack.mk (0 : ℚ) 1 1 [true] [] none 0).zmin
                    (Stack.mk (0 : ℚ) 1 1 [true] [] none 0).zmax
                    (Stack.mk (0 : ℚ) 1 1 [true] [] none 0).ntexs 3) },
               none))) :=
  ⟨by decide, zposToIndex_outside_range (Stack.mk (0 : ℚ) 1 1 [true] [] none 0) true 3
    (by decide)⟩

/-- C8 counterexample: with an allocator that fails at the requested
`512 × 512` size but would succeed at the default `256 × 256`, the code's
refresh does not match the claimed fallback behaviour: it never attempts
the default size (its one `setSize` call is the requested size), and the
failure escapes instead of leaving a cleanly-dirty slot. -/
theorem refreshTexture_no_fallback :
    (refreshTexture (fun w h => w == 256 && h == 256) true (some (512, 512))
        ≠ refreshTextureSpec (fun w h => w == 256 && h == 256) true (some (512, 512))) ∧
      (256, 256) ∉ (refreshTexture (fun w h => w == 256 && h == 256) true
        (some (512, 512))).attempts ∧
      (refreshTexture (fun w h => w == 256 && h == 256) true
        (some (512, 512))).dirtyCleared = false ∧
      (refreshTexture (fun w h => w == 256 && h == 256) true
        (some (512, 512))).raised = true := by
  decide

/-- C8 amended: `__refreshTexture` contains no fallback logic: when the
GLObject is ready it calls `tex.setSize` exactly once, with the clamped
computed size; if that allocation fails, no second attempt at the default
size is made, the dirty flag is not cleared (line 313 is unreachable),
and the failure propagates out of the refresh. -/
theorem refreshTexture_single_attempt (alloc : ℕ → ℕ → Bool)
    (res : Option (ℕ × ℕ))
    (h : alloc (clampedSize res).1 (clampedSize res).2 = false) :
    refreshTexture alloc true res = ⟨[clampedSize res], false, true⟩ := by
  simp [refreshTexture, h]

/-- C8 witness: an allocator that always fails, with no data resolution
(so the requested size is the default). -/
theorem refreshTexture_single_attempt_witness :
    (fun _ _ : ℕ => false) (clampedSize none).1 (clampedSize none).2 = false ∧
      refreshTexture (fun _ _ : ℕ => false) true none
        = ⟨[clampedSize none], false, true⟩ :=
  ⟨by decide, refreshTexture_single_attempt (fun _ _ : ℕ => false) none (by decide)⟩

end RenderTextureStack
